import Mathlib

/-
Verification development for the EmoConnect repository: a shallow
embedding, in Lean 4, of the emotion decision policy of
src/main_integrated.py, the rolling sample window of
src/emotion_webcam.py, and the process supervisor, readiness prober and
orchestration routes of src/controller.py, together with theorems
settling the specified properties of those components.
-/

namespace EmoConnect

/-! ## String helpers

Executable models of the Python string methods used by the source
(str.lower and str.strip), mapping character by character over the
underlying character list. -/

/-- Model of Python str.lower, applied character by character. -/
def pyLower (s : String) : String := ⟨s.data.map Char.toLower⟩

/-- Model of Python str.strip: drop whitespace from both ends. -/
def pyStrip (s : String) : String :=
  ⟨((s.data.dropWhile Char.isWhitespace).reverse.dropWhile Char.isWhitespace).reverse⟩

/-! ## Emotion decision policy (src/main_integrated.py)

Embedding of ElderCompanionBot.detect_emotion and
ElderCompanionBot.llm_emotion_fallback. Confidences are modelled as
rationals. -/

/-- One entry of the `data` list returned by the emotion endpoint, as
read by `detect_emotion`: fields `emotion` and `confidence`. -/
structure Frame where
  emotion : String
  confidence : ℚ
deriving DecidableEq

/-- Model of `counts.setdefault(emo, []).append(conf)` on an
insertion-ordered association list, as a Python dict preserves insertion
order: append the confidence to the entry for `emo`, creating the entry
at the end if absent. -/
def addSample (counts : List (String × List ℚ)) (emo : String) (conf : ℚ) :
    List (String × List ℚ) :=
  match counts with
  | [] => [(emo, [conf])]
  | (k, v) :: rest =>
    if k = emo then (k, v ++ [conf]) :: rest
    else (k, v) :: addSample rest emo conf

/-- One iteration of the grouping loop `for f in frames` of
`detect_emotion`: add the confidence of one frame under its lowercased
emotion label. -/
def groupStep (c : List (String × List ℚ)) (f : Frame) : List (String × List ℚ) :=
  addSample c (pyLower f.emotion) f.confidence

/-- The grouping loop `for f in frames` of `detect_emotion`: group the
confidences by lowercased emotion label, in first-encounter order. -/
def groupFrames (frames : List Frame) : List (String × List ℚ) :=
  frames.foldl groupStep []

/-- Model of Python `max` over a list of confidences (`max(item[1])`);
the lists it is applied to are never empty, the `0` default is inert. -/
def listMax : List ℚ → ℚ
  | [] => 0
  | x :: xs => xs.foldl max x

/-- One comparison step of Python `max(..., key=f)`: the running best is
replaced only when the key of the new item is strictly larger. -/
def maxStep (f : α → ℚ) (best y : α) : α :=
  if f y > f best then y else best

/-- Model of Python `max(iterable, key=f)`: the first maximal element;
`none` on an empty iterable, where CPython raises `ValueError` (caught
by the surrounding `except` in `detect_emotion`). -/
def maxByKey (f : α → ℚ) : List α → Option α
  | [] => none
  | x :: xs => some (xs.foldl (maxStep f) x)

/-- The six labels `llm_emotion_fallback` accepts from the oracle. -/
def fallbackLabels : List String :=
  ["happy", "sad", "angry", "fear", "disgust", "surprise"]

/-- The seven labels the webcam classifier can emit
(`CLASSES` in src/emotion_webcam.py). -/
def CLASSES : List String :=
  ["angry", "disgust", "fear", "happy", "neutral", "sad", "surprise"]

/-- Outcome of the oracle call `self.chat.send_message(prompt)` as seen
by `llm_emotion_fallback`: either the call (or reading its text) raised,
or it returned some text. -/
inductive OracleResult where
  | err : OracleResult
  | reply (text : String) : OracleResult
deriving DecidableEq

/-- Embedding of `ElderCompanionBot.llm_emotion_fallback`: strip and
lowercase the reply, accept it when it is one of the six labels,
otherwise (including when the call raised) return "neutral". -/
def llm_emotion_fallback (r : OracleResult) : String :=
  match r with
  | .err => "neutral"
  | .reply t =>
    let emotion := pyLower (pyStrip t)
    if emotion ∈ fallbackLabels then emotion else "neutral"

/-- Outcome of `requests.get("http://127.0.0.1:5000/emotion",
timeout=1.0)` together with payload decoding, as observed by
`detect_emotion`: `exn` when the request or decoding raised (connection
failure, request timeout, bad JSON, a sample missing a field or with a
non-numeric confidence), otherwise the HTTP status and the decoded
`data` list (a payload without a `data` key decodes to `[]`). -/
inductive FetchResult where
  | exn : FetchResult
  | resp (status : Nat) (frames : List Frame) : FetchResult
deriving DecidableEq

/-- The branch of `detect_emotion` taken once neutral has been removed:
with exactly one non-neutral label return it, otherwise take the label
whose maximum confidence is largest via Python `max` (first maximal
wins); an empty input corresponds to `max` raising `ValueError`, caught
by the surrounding `except` which returns "neutral". -/
def pickNonNeutral (non_neutral : List (String × List ℚ)) : String :=
  match non_neutral with
  | [kv] => kv.1
  | l =>
    match maxByKey (fun kv => listMax kv.2) l with
    | some kv => kv.1
    | none => "neutral"

/-- Embedding of `ElderCompanionBot.detect_emotion`: "neutral" on a
raised fetch, a non-200 status or an empty window; the LLM fallback when
the only grouped label is "neutral"; otherwise the decision over the
non-neutral groups. -/
def detect_emotion (fetch : FetchResult) (oracle : OracleResult) : String :=
  match fetch with
  | .exn => "neutral"
  | .resp status frames =>
    if status ≠ 200 then "neutral"
    else if frames = [] then "neutral"
    else
      let counts := groupFrames frames
      if counts.map Prod.fst = ["neutral"] then llm_emotion_fallback oracle
      else pickNonNeutral (counts.filter fun kv => kv.1 ≠ "neutral")

/-! ## Rolling sample window (src/emotion_webcam.py)

Embedding of `emotion_window = deque(maxlen=5)` and the append performed
once per second by `webcam_loop`. -/

/-- One entry appended to the rolling window by `webcam_loop`:
`{timestamp, emotion, confidence}`. -/
structure Sample where
  timestamp : ℚ
  emotion : String
  confidence : ℚ
deriving DecidableEq

/-- Embedding of `emotion_window.append(x)` for a deque with
`maxlen=5`: append on the right, then evict from the left down to five
entries. -/
def windowAppend (w : List Sample) (x : Sample) : List Sample :=
  (w ++ [x]).drop ((w ++ [x]).length - 5)

/-! ## Process supervisor (src/controller.py)

Embedding of the module-level registry `PROCS` and the functions
`is_running`, `start_process`, `stop_process`, `wait_for_emotion_api`
and `status_payload`, with the behaviour of the operating system during
one call (script existence, spawn outcome, termination outcomes, probe
attempt outcomes) supplied as explicit environment values. -/

/-- A spawned child process as the controller observes it: its pid and
whether `poll()` currently returns `None` (still running). -/
structure Proc where
  pid : Nat
  alive : Bool
deriving DecidableEq

/-- The registry `PROCS`: a service name maps to the recorded process
handle, `none` when no process is recorded. -/
abbrev ProcMap := String → Option Proc

/-- Embedding of the assignment `PROCS[name] = v`. -/
def setProc (procs : ProcMap) (name : String) (v : Option Proc) : ProcMap :=
  fun n => if n = name then v else procs n

/-- Embedding of `is_running`: a handle is recorded and its `poll()`
shows it alive. -/
def is_running (procs : ProcMap) (name : String) : Bool :=
  match procs name with
  | none => false
  | some p => p.alive

/-- Environment of one `start_process` call: the value of
`os.path.exists(script)` and the outcome of `subprocess.Popen`
(`Except.error` when `Popen` raises — `start_process` has no handler for
it, so that error propagates to the caller). -/
structure StartEnv where
  script_exists : Bool
  spawn : Except String Proc

/-- The structured result dictionary of `start_process`:
`ok`, `message`, and the optional `pid`. -/
structure StartResult where
  ok : Bool
  message : String
  pid : Option Nat
deriving DecidableEq

/-- Embedding of `start_process`: succeed with the recorded pid when the
service is already running; fail in a structured way when the script
file is missing; otherwise spawn, record the handle and succeed — or
propagate the uncaught `Popen` error. -/
def start_process (procs : ProcMap) (name script : String) (env : StartEnv) :
    Except String (StartResult × ProcMap) :=
  if is_running procs name then
    .ok ({ ok := true, message := name ++ " already running",
           pid := (procs name).map Proc.pid }, procs)
  else if env.script_exists = false then
    .ok ({ ok := false, message := "Missing file: " ++ script, pid := none }, procs)
  else
    match env.spawn with
    | .error e => .error e
    | .ok p =>
      .ok ({ ok := true, message := "Started " ++ name, pid := some p.pid },
           setProc procs name (some p))

/-- Behaviour of the operating system during one `stop_process` call on
a live process: the graceful termination request may raise; otherwise,
after the 0.8 second grace period, the process either has exited
(`poll()` is not `None`) or is still alive, in which case `kill()` runs
and may itself raise. -/
inductive StopEnv where
  | termRaises (msg : String)
  | diedInGrace
  | survivedKillOk
  | survivedKillRaises (msg : String)
deriving DecidableEq

/-- The structured result dictionary of `stop_process`: `ok`, `message`. -/
structure StopResult where
  ok : Bool
  message : String
deriving DecidableEq

/-- Embedding of `stop_process`: trivial success when no handle is
recorded; clear and succeed when the process already exited; otherwise
terminate, wait the grace period, kill if still alive, clear the handle
and succeed — reporting a structured failure, with the handle left
intact, exactly when a termination primitive raised. -/
def stop_process (procs : ProcMap) (name : String) (env : StopEnv) :
    StopResult × ProcMap :=
  match procs name with
  | none => ({ ok := true, message := name ++ " not running" }, procs)
  | some p =>
    if p.alive = false then
      ({ ok := true, message := name ++ " already stopped" }, setProc procs name none)
    else
      match env with
      | .termRaises m => ({ ok := false, message := "Stop failed: " ++ m }, procs)
      | .diedInGrace =>
        ({ ok := true, message := "Stopped " ++ name }, setProc procs name none)
      | .survivedKillOk =>
        ({ ok := true, message := "Stopped " ++ name }, setProc procs name none)
      | .survivedKillRaises m =>
        ({ ok := false, message := "Stop failed: " ++ m }, procs)

/-- Outcome of one `requests.get(..., timeout=0.4)` attempt inside
`wait_for_emotion_api`: the request raised (connection failure or
request timeout), or it returned a status code. -/
inductive ProbeOutcome where
  | exn : ProbeOutcome
  | status (code : Nat) : ProbeOutcome
deriving DecidableEq

/-- Embedding of `wait_for_emotion_api` over a trace of attempts: each
trace entry pairs the attempt outcome with the wall-clock time that loop
iteration consumes (request duration plus the 0.2 second sleep). The
guard `time.time() - start < timeout` is checked before each attempt; a
200 status returns `true` immediately, every other outcome — raised
request or non-200 status — is ignored and the loop continues; an
expired guard returns `false`, as does an exhausted trace. -/
def wait_for_emotion_api (timeout : ℚ) : ℚ → List (ProbeOutcome × ℚ) → Bool
  | _elapsed, [] => false
  | elapsed, od :: rest =>
    if elapsed < timeout then
      match od.1 with
      | .status code =>
        if code = 200 then true
        else wait_for_emotion_api timeout (elapsed + od.2) rest
      | .exn => wait_for_emotion_api timeout (elapsed + od.2) rest
    else false

/-- The status dictionary built by `status_payload`. -/
structure StatusPayload where
  emotion_running : Bool
  bot_running : Bool
  emotion_pid : Option Nat
  bot_pid : Option Nat
  emotion_api_reachable : Bool
deriving DecidableEq

/-- Embedding of `status_payload`: read liveness of both services,
conditionally their pids, and a fast reachability probe
(`wait_for_emotion_api(timeout=0.1)` over the given attempt trace). The
function writes nothing: the registry is returned unchanged, matching
the absence of any assignment to `PROCS` in its body. -/
def status_payload (procs : ProcMap) (trace : List (ProbeOutcome × ℚ)) :
    StatusPayload × ProcMap :=
  ({ emotion_running := is_running procs "emotion",
     bot_running := is_running procs "bot",
     emotion_pid :=
       if is_running procs "emotion" then (procs "emotion").map Proc.pid else none,
     bot_pid :=
       if is_running procs "bot" then (procs "bot").map Proc.pid else none,
     emotion_api_reachable := wait_for_emotion_api (mkRat 1 10) 0 trace }, procs)

/-! ## Orchestration routes (src/controller.py)

Embedding of the `/start` and `/stop` Flask routes, with an explicit
event list recording launch attempts, the probe return and the stop
calls in program order. -/

/-- Observable control-plane events of the orchestration routes. -/
inductive Event where
  | launch (name : String)
  | probeReturn (ready : Bool)
  | stopCall (name : String)
deriving DecidableEq

/-- The launch attempts one `start_process` call performs: `Popen` is
reached exactly when the service is not already running and the script
file exists. -/
def start_events (procs : ProcMap) (name : String) (env : StartEnv) : List Event :=
  if is_running procs name then []
  else if env.script_exists = false then []
  else [.launch name]

/-- Embedding of the `/start` route: start the webcam producer, block on
`wait_for_emotion_api(timeout=30.0)`, and start the bot only if the
probe reported ready, otherwise substitute the fixed failure payload for
the bot result. The event list records launch attempts and the probe
return in program order; when `start_process` for the producer raises,
the route propagates the error and nothing further runs. -/
def start_all (procs : ProcMap) (envE : StartEnv)
    (probeTrace : List (ProbeOutcome × ℚ)) (envB : StartEnv) :
    Except String (StartResult × Bool × StartResult) × ProcMap × List Event :=
  match start_process procs "emotion" "emotion_webcam.py" envE with
  | .error e => (.error e, procs, start_events procs "emotion" envE)
  | .ok (resE, procs1) =>
    let ready := wait_for_emotion_api 30 0 probeTrace
    let evs := start_events procs "emotion" envE ++ [Event.probeReturn ready]
    if ready then
      match start_process procs1 "bot" "main_integrated.py" envB with
      | .error e => (.error e, procs1, evs ++ start_events procs1 "bot" envB)
      | .ok (resB, procs2) =>
        (.ok (resE, true, resB), procs2, evs ++ start_events procs1 "bot" envB)
    else
      (.ok (resE, false,
            { ok := false,
              message := "Emotion API did not come up. Bot not started.",
              pid := none }),
       procs1, evs)

/-- Embedding of the `/stop` route: stop the bot consumer first, then
the webcam producer, threading the registry from the first stop into the
second. -/
def stop_all (procs : ProcMap) (envB envE : StopEnv) :
    (StopResult × StopResult) × ProcMap × List Event :=
  let rB := stop_process procs "bot" envB
  let rE := stop_process rB.2 "emotion" envE
  ((rB.1, rE.1), rE.2, [.stopCall "bot", .stopCall "emotion"])

/-! ## Helper lemmas about grouping -/

/-- Keys after one `addSample`: the old keys, plus the added one. -/
theorem mem_keys_addSample {c : List (String × List ℚ)} {e x : String} {conf : ℚ} :
    x ∈ (addSample c e conf).map Prod.fst ↔ x ∈ c.map Prod.fst ∨ x = e := by
  induction c with
  | nil => simp [addSample]
  | cons kv rest ih =>
    obtain ⟨k, v⟩ := kv
    by_cases hk : k = e
    · subst hk
      simp [addSample]
      tauto
    · simp [addSample, hk, ih]
      tauto

/-- Folding more frames never removes a key. -/
theorem mem_keys_foldl_of_mem {x : String} :
    ∀ (frames : List Frame) (c : List (String × List ℚ)),
      x ∈ c.map Prod.fst → x ∈ (frames.foldl groupStep c).map Prod.fst := by
  intro frames
  induction frames with
  | nil => intro c h; simpa using h
  | cons f rest ih =>
    intro c h
    rw [List.foldl_cons]
    exact ih _ (mem_keys_addSample.mpr (Or.inl h))

/-- Every frame contributes its lowercased label to the keys of the
grouping. -/
theorem mem_keys_of_mem_frames {f : Frame} :
    ∀ (frames : List Frame) (c : List (String × List ℚ)), f ∈ frames →
      pyLower f.emotion ∈ (frames.foldl groupStep c).map Prod.fst := by
  intro frames
  induction frames with
  | nil => intro c h; cases h
  | cons g rest ih =>
    intro c h
    rw [List.foldl_cons]
    rcases List.mem_cons.mp h with rfl | hmem
    · exact mem_keys_foldl_of_mem rest _ (mem_keys_addSample.mpr (Or.inr rfl))
    · exact ih _ hmem

/-- Every key of the grouping is a lowercased label of some frame (or a
key of the accumulator). -/
theorem keys_foldl_subset {x : String} :
    ∀ (frames : List Frame) (c : List (String × List ℚ)),
      x ∈ (frames.foldl groupStep c).map Prod.fst →
      x ∈ c.map Prod.fst ∨ ∃ f ∈ frames, pyLower f.emotion = x := by
  intro frames
  induction frames with
  | nil => intro c h; exact Or.inl (by simpa using h)
  | cons g rest ih =>
    intro c h
    rw [List.foldl_cons] at h
    rcases ih _ h with hc | ⟨f, hf, hfx⟩
    · rcases mem_keys_addSample.mp hc with hc' | rfl
      · exact Or.inl hc'
      · exact Or.inr ⟨g, List.mem_cons_self g rest, rfl⟩
    · exact Or.inr ⟨f, List.mem_cons_of_mem g hf, hfx⟩

/-- A grouping whose key list is a singleton is a single entry. -/
theorem keys_singleton_shape {c : List (String × List ℚ)} {a : String}
    (h : c.map Prod.fst = [a]) : ∃ v, c = [(a, v)] := by
  cases c with
  | nil => simp at h
  | cons kv rest =>
    obtain ⟨k, v⟩ := kv
    cases rest with
    | nil =>
      simp at h
      exact ⟨v, by rw [h]⟩
    | cons kv' rest' => simp at h

/-- Adding the baseline label to a grouping whose only key is the
baseline label keeps the key list unchanged. -/
theorem addSample_neutral_keys {c : List (String × List ℚ)} {conf : ℚ}
    (h : c.map Prod.fst = ["neutral"]) :
    (addSample c "neutral" conf).map Prod.fst = ["neutral"] := by
  obtain ⟨v, rfl⟩ := keys_singleton_shape h
  simp [addSample]

/-- Folding baseline-only frames onto a baseline-only grouping keeps the
key list at `["neutral"]`. -/
theorem foldl_all_neutral_keys :
    ∀ (frames : List Frame), (∀ f ∈ frames, pyLower f.emotion = "neutral") →
      ∀ c : List (String × List ℚ), c.map Prod.fst = ["neutral"] →
        (frames.foldl groupStep c).map Prod.fst = ["neutral"] := by
  intro frames
  induction frames with
  | nil => intro _ c hc; simpa using hc
  | cons g rest ih =>
    intro hall c hc
    rw [List.foldl_cons]
    have hg : pyLower g.emotion = "neutral" := hall g (List.mem_cons_self g rest)
    refine ih (fun f hf => hall f (List.mem_cons_of_mem g hf)) _ ?_
    rw [groupStep, hg]
    exact addSample_neutral_keys hc

/-- A non-empty window in which every frame carries the baseline label
groups to the single key `["neutral"]`. -/
theorem groupFrames_all_neutral {frames : List Frame} (hne : frames ≠ [])
    (hall : ∀ f ∈ frames, pyLower f.emotion = "neutral") :
    (groupFrames frames).map Prod.fst = ["neutral"] := by
  cases frames with
  | nil => exact absurd rfl hne
  | cons g rest =>
    rw [groupFrames, List.foldl_cons]
    have hg : pyLower g.emotion = "neutral" := hall g (List.mem_cons_self g rest)
    refine foldl_all_neutral_keys rest (fun f hf => hall f (List.mem_cons_of_mem g hf)) _ ?_
    simp [groupStep, hg, addSample]

/-! ## Helper lemmas about the Python max -/

/-- The element `y` is the first maximal element of `l` under key `f`:
everything before it is strictly smaller, everything after it no
larger. -/
def firstMaximal (f : α → ℚ) (l : List α) (y : α) : Prop :=
  ∃ l1 l2, l = l1 ++ y :: l2 ∧ (∀ z ∈ l1, f z < f y) ∧ (∀ z ∈ l2, f z ≤ f y)

/-- A first maximal element belongs to the list. -/
theorem firstMaximal_mem {f : α → ℚ} {l : List α} {y : α}
    (h : firstMaximal f l y) : y ∈ l := by
  obtain ⟨l1, l2, rfl, -, -⟩ := h
  exact List.mem_append.mpr (Or.inr (List.mem_cons_self y l2))

/-- The fold computing Python `max(..., key=f)` returns the first
maximal element of the iterated list. -/
theorem foldl_maxStep_firstMaximal (f : α → ℚ) :
    ∀ (xs : List α) (x : α), firstMaximal f (x :: xs) (xs.foldl (maxStep f) x) := by
  intro xs
  induction xs with
  | nil =>
    intro x
    exact ⟨[], [], rfl, by simp, by simp⟩
  | cons a rest ih =>
    intro x
    rw [List.foldl_cons]
    by_cases hgt : f a > f x
    · have hstep : maxStep f x a = a := by simp [maxStep, hgt]
      rw [hstep]
      obtain ⟨l1, l2, heq, h1, h2⟩ := ih a
      set y := rest.foldl (maxStep f) a with hy
      have hay : f a ≤ f y := by
        cases l1 with
        | nil =>
          rw [List.nil_append] at heq
          exact le_of_eq (congrArg f (List.cons.inj heq).1)
        | cons b t =>
          rw [List.cons_append] at heq
          have hab : a = b := (List.cons.inj heq).1
          have hb := h1 b (List.mem_cons_self b t)
          rw [← hab] at hb
          exact le_of_lt hb
      refine ⟨x :: l1, l2, ?_, ?_, h2⟩
      · rw [List.cons_append, ← heq]
      · intro z hz
        rcases List.mem_cons.mp hz with rfl | hz'
        · exact lt_of_lt_of_le hgt hay
        · exact h1 z hz'
    · have hstep : maxStep f x a = x := by simp [maxStep, hgt]
      rw [hstep]
      obtain ⟨l1, l2, heq, h1, h2⟩ := ih x
      set y := rest.foldl (maxStep f) x with hy
      have hax : f a ≤ f x := le_of_not_lt hgt
      cases l1 with
      | nil =>
        rw [List.nil_append] at heq
        have hxy : x = y := (List.cons.inj heq).1
        have hl2 : rest = l2 := (List.cons.inj heq).2
        refine ⟨[], a :: l2, ?_, by simp, ?_⟩
        · rw [List.nil_append, ← hl2, ← hxy]
        · intro z hz
          rcases List.mem_cons.mp hz with rfl | hz'
          · rw [← hxy]; exact hax
          · exact h2 z hz'
      | cons b t =>
        rw [List.cons_append] at heq
        have hxb : x = b := (List.cons.inj heq).1
        have hrest : rest = t ++ y :: l2 := (List.cons.inj heq).2
        have hby : f b < f y := h1 b (List.mem_cons_self b t)
        refine ⟨x :: a :: t, l2, ?_, ?_, h2⟩
        · rw [List.cons_append, List.cons_append, hrest]
        · intro z hz
          rcases List.mem_cons.mp hz with rfl | hz'
          · rw [hxb]; exact hby
          · rcases List.mem_cons.mp hz' with rfl | hz''
            · refine lt_of_le_of_lt hax ?_
              rw [hxb]; exact hby
            · exact h1 z (List.mem_cons_of_mem b hz'')

/-- The non-neutral decision branch always returns the key of the first
maximal entry (under the maximum-confidence key) of its non-empty
input. -/
theorem pickNonNeutral_spec (l : List (String × List ℚ)) (hne : l ≠ []) :
    ∃ kv, firstMaximal (fun kv => listMax kv.2) l kv ∧ pickNonNeutral l = kv.1 := by
  match l with
  | [] => exact absurd rfl hne
  | [kv] =>
    exact ⟨kv, ⟨[], [], rfl, by simp, by simp⟩, rfl⟩
  | a :: b :: rest =>
    refine ⟨(b :: rest).foldl (maxStep fun kv => listMax kv.2) a,
      foldl_maxStep_firstMaximal _ (b :: rest) a, rfl⟩

/-! ## Unfolding lemmas for the decision policy -/

/-- With a 200 status, a non-empty window and a key list other than
`["neutral"]`, the decision is the non-neutral branch. -/
theorem detect_emotion_eq_pick {frames : List Frame} (oracle : OracleResult)
    (hne : frames ≠ [])
    (hkeys : (groupFrames frames).map Prod.fst ≠ ["neutral"]) :
    detect_emotion (.resp 200 frames) oracle =
      pickNonNeutral ((groupFrames frames).filter fun kv => kv.1 ≠ "neutral") := by
  simp [detect_emotion, hne, hkeys]

/-- With a 200 status, a non-empty window and the key list
`["neutral"]`, the decision delegates to the LLM fallback. -/
theorem detect_emotion_eq_fallback {frames : List Frame} (oracle : OracleResult)
    (hne : frames ≠ [])
    (hkeys : (groupFrames frames).map Prod.fst = ["neutral"]) :
    detect_emotion (.resp 200 frames) oracle = llm_emotion_fallback oracle := by
  simp [detect_emotion, hne, hkeys]

/-- The LLM fallback only ever produces one of the seven classifier
labels. -/
theorem llm_emotion_fallback_mem_CLASSES (r : OracleResult) :
    llm_emotion_fallback r ∈ CLASSES := by
  cases r with
  | err => simp [llm_emotion_fallback, CLASSES]
  | reply t =>
    simp only [llm_emotion_fallback]
    by_cases h : pyLower (pyStrip t) ∈ fallbackLabels
    · rw [if_pos h]
      simp only [fallbackLabels, List.mem_cons, List.not_mem_nil, or_false] at h
      rcases h with h | h | h | h | h | h <;> rw [h] <;> simp [CLASSES]
    · rw [if_neg h]
      simp [CLASSES]

/-! ## Claims about the decision policy -/

/-- C1: for every non-empty sample window containing at least one
non-baseline (non-neutral) sample, the decision policy returns a
non-baseline label: after discarding the baseline label, if exactly one
non-baseline label remains it is returned, and if several remain the
policy returns the label whose maximum per-sample confidence is the
largest, ties broken in favour of the first-encountered label in
iteration order (the returned label is the first maximal entry of the
non-neutral groups). -/
theorem C1_nonbaseline_decision (frames : List Frame) (oracle : OracleResult)
    (hne : frames ≠ [])
    (hnb : ∃ f ∈ frames, pyLower f.emotion ≠ "neutral") :
    detect_emotion (.resp 200 frames) oracle ≠ "neutral" ∧
    (∀ kv, ((groupFrames frames).filter fun kv => kv.1 ≠ "neutral") = [kv] →
      detect_emotion (.resp 200 frames) oracle = kv.1) ∧
    ∃ kv, firstMaximal (fun kv => listMax kv.2)
        ((groupFrames frames).filter fun kv => kv.1 ≠ "neutral") kv ∧
      detect_emotion (.resp 200 frames) oracle = kv.1 ∧ kv.1 ≠ "neutral" := by
  obtain ⟨f0, hf0, hf0n⟩ := hnb
  have hkey0 : pyLower f0.emotion ∈ (groupFrames frames).map Prod.fst := by
    rw [groupFrames]
    exact mem_keys_of_mem_frames frames [] hf0
  have hkeys : (groupFrames frames).map Prod.fst ≠ ["neutral"] := by
    intro h
    rw [h] at hkey0
    simp at hkey0
    exact hf0n hkey0
  have hdet := detect_emotion_eq_pick oracle hne hkeys
  obtain ⟨kv0, hkv0mem, hkv0fst⟩ := List.mem_map.mp hkey0
  have hkv0filter : kv0 ∈ (groupFrames frames).filter (fun kv => kv.1 ≠ "neutral") := by
    refine List.mem_filter.mpr ⟨hkv0mem, ?_⟩
    simp only [hkv0fst]
    exact decide_eq_true hf0n
  have hnnne : ((groupFrames frames).filter fun kv => kv.1 ≠ "neutral") ≠ [] :=
    List.ne_nil_of_mem hkv0filter
  obtain ⟨kv, hfm, hpick⟩ := pickNonNeutral_spec _ hnnne
  have hkvmem := firstMaximal_mem hfm
  have hkvne : kv.1 ≠ "neutral" := by
    have h := (List.mem_filter.mp hkvmem).2
    simpa using h
  refine ⟨?_, ?_, kv, hfm, ?_, hkvne⟩
  · rw [hdet, hpick]
    exact hkvne
  · intro kv' hkv'
    rw [hdet, hkv', pickNonNeutral]
  · rw [hdet, hpick]

/-- Witness for C1 at a concrete window: four neutral samples and one
happy sample give a non-neutral decision. -/
theorem C1_witness :
    detect_emotion (.resp 200 [⟨"neutral", mkRat 9 10⟩, ⟨"neutral", mkRat 9 10⟩,
      ⟨"happy", mkRat 3 5⟩, ⟨"neutral", mkRat 9 10⟩, ⟨"neutral", mkRat 9 10⟩])
      .err ≠ "neutral" :=
  (C1_nonbaseline_decision _ .err (by decide) (by decide)).1

/-- C4: when every sample in a non-empty window carries the baseline
label "neutral", the decision policy delegates to the external oracle,
and for every oracle outcome — a raised error or a returned value whose
normalised form (stripped, lowercased, as the code consumes it) lies
outside the fixed label set — the fallback returns "neutral" and never
propagates the failure. -/
theorem C4_baseline_oracle_fallback (frames : List Frame) (oracle : OracleResult)
    (hne : frames ≠ [])
    (hall : ∀ f ∈ frames, pyLower f.emotion = "neutral") :
    detect_emotion (.resp 200 frames) oracle = llm_emotion_fallback oracle ∧
    llm_emotion_fallback .err = "neutral" ∧
    (∀ t, pyLower (pyStrip t) ∉ fallbackLabels →
      llm_emotion_fallback (.reply t) = "neutral") := by
  refine ⟨?_, rfl, ?_⟩
  · exact detect_emotion_eq_fallback oracle hne (groupFrames_all_neutral hne hall)
  · intro t ht
    simp [llm_emotion_fallback, ht]

/-- Witness for C4 at a concrete window and oracle reply: an all-neutral
window with an oracle reply outside the label set yields "neutral". -/
theorem C4_witness :
    detect_emotion (.resp 200 [⟨"neutral", mkRat 99 100⟩]) (.reply "banana") = "neutral" := by
  have h := C4_baseline_oracle_fallback [⟨"neutral", mkRat 99 100⟩] (.reply "banana")
    (by decide) (by decide)
  rw [h.1]
  exact h.2.2 "banana" (by decide)

/-- C10: the decision policy is total over all fetch outcomes — a raised
request, a non-200 status and an empty window all yield "neutral"
instead of an exception, and when the sample source honours its contract
(every label, lowercased, among the seven classifier classes) every call
returns a member of that fixed label set. -/
theorem C10_detect_total (oracle : OracleResult) :
    detect_emotion .exn oracle = "neutral" ∧
    (∀ status frames, status ≠ 200 →
      detect_emotion (.resp status frames) oracle = "neutral") ∧
    detect_emotion (.resp 200 []) oracle = "neutral" ∧
    (∀ frames, (∀ f ∈ frames, pyLower f.emotion ∈ CLASSES) →
      detect_emotion (.resp 200 frames) oracle ∈ CLASSES) := by
  refine ⟨rfl, ?_, ?_, ?_⟩
  · intro status frames hstatus
    simp [detect_emotion, hstatus]
  · simp [detect_emotion]
  · intro frames hmem
    by_cases hne : frames = []
    · subst hne
      simp [detect_emotion, CLASSES]
    · by_cases hkeys : (groupFrames frames).map Prod.fst = ["neutral"]
      · rw [detect_emotion_eq_fallback oracle hne hkeys]
        exact llm_emotion_fallback_mem_CLASSES oracle
      · rw [detect_emotion_eq_pick oracle hne hkeys]
        rcases hnn : ((groupFrames frames).filter fun kv => kv.1 ≠ "neutral") with - | ⟨kv0, rest⟩
        · rw [hnn]
          decide
        · obtain ⟨kv, hfm, hpick⟩ :=
            pickNonNeutral_spec ((groupFrames frames).filter fun kv => kv.1 ≠ "neutral")
              (by rw [hnn]; simp)
          rw [hpick]
          have hkvg : kv ∈ groupFrames frames :=
            (List.mem_filter.mp (firstMaximal_mem hfm)).1
          have hkey : kv.1 ∈ (groupFrames frames).map Prod.fst :=
            List.mem_map.mpr ⟨kv, hkvg, rfl⟩
          rw [groupFrames] at hkey
          rcases keys_foldl_subset frames [] hkey with habs | ⟨f, hf, hfx⟩
          · simp at habs
          · rw [← hfx]
            exact hmem f hf

/-- Witness for C10 at concrete fetch outcomes: a 404 status yields
"neutral", and a well-formed window yields one of the seven classes. -/
theorem C10_witness :
    detect_emotion (.resp 404 [⟨"happy", 1⟩]) .err = "neutral" ∧
    detect_emotion (.resp 200 [⟨"happy", 1⟩]) .err ∈ CLASSES :=
  ⟨(C10_detect_total .err).2.1 404 _ (by decide),
   (C10_detect_total .err).2.2.2 _ (by decide)⟩

/-! ## Claims about the sample window -/

/-- Folding deque appends from any window of at most five samples keeps
exactly the trailing five of the combined sequence. -/
theorem foldl_windowAppend (l : List Sample) :
    ∀ w : List Sample, w.length ≤ 5 →
      l.foldl windowAppend w = (w ++ l).drop ((w ++ l).length - 5) := by
  induction l with
  | nil =>
    intro w hw
    rw [List.foldl_nil, List.append_nil]
    have h : w.length - 5 = 0 := by omega
    rw [h, List.drop_zero]
  | cons x restl ih =>
    intro w hw
    rw [List.foldl_cons]
    have hlen : (windowAppend w x).length ≤ 5 := by
      simp only [windowAppend, List.length_drop, List.length_append]
      omega
    rw [ih (windowAppend w x) hlen, windowAppend]
    have ha : (w ++ [x]).length - 5 ≤ (w ++ [x]).length := Nat.sub_le _ _
    rw [← List.drop_append_of_le_length ha, List.drop_drop, List.append_assoc,
      List.singleton_append]
    congr 1
    simp only [List.length_drop, List.length_append, List.length_cons,
      List.length_nil]
    omega

/-- C6: the sample window always holds at most five samples in insertion
order; a full window evicts exactly the oldest sample on append (FIFO);
folding any sample sequence into an empty window leaves exactly the
trailing five, oldest first — in particular seven appends leave exactly
the last five. -/
theorem C6_window_fifo (w : List Sample) (x : Sample) (l : List Sample)
    (s1 s2 s3 s4 s5 s6 s7 : Sample) :
    (windowAppend w x).length ≤ 5 ∧
    (w.length = 5 → windowAppend w x = w.drop 1 ++ [x]) ∧
    l.foldl windowAppend [] = l.drop (l.length - 5) ∧
    [s1, s2, s3, s4, s5, s6, s7].foldl windowAppend [] = [s3, s4, s5, s6, s7] := by
  refine ⟨?_, ?_, ?_, ?_⟩
  · simp only [windowAppend, List.length_drop, List.length_append]
    omega
  · intro h5
    rw [windowAppend]
    have h1 : (w ++ [x]).length - 5 = 1 := by
      simp only [List.length_append, List.length_cons, List.length_nil, h5]
    rw [h1, List.drop_append_of_le_length (by omega)]
  · have h := foldl_windowAppend l [] (by simp)
    simpa using h
  · have h := foldl_windowAppend [s1, s2, s3, s4, s5, s6, s7] [] (by simp)
    simpa using h

/-- Witness for C6 at a concrete full window: appending a sixth sample
evicts exactly the first. -/
theorem C6_witness :
    windowAppend [⟨1, "a", 0⟩, ⟨2, "b", 0⟩, ⟨3, "c", 0⟩, ⟨4, "d", 0⟩, ⟨5, "e", 0⟩]
        ⟨6, "f", 0⟩ =
      [⟨2, "b", 0⟩, ⟨3, "c", 0⟩, ⟨4, "d", 0⟩, ⟨5, "e", 0⟩, ⟨6, "f", 0⟩] :=
  (C6_window_fifo [⟨1, "a", 0⟩, ⟨2, "b", 0⟩, ⟨3, "c", 0⟩, ⟨4, "d", 0⟩, ⟨5, "e", 0⟩]
    ⟨6, "f", 0⟩ [] ⟨0, "z", 0⟩ ⟨0, "z", 0⟩ ⟨0, "z", 0⟩ ⟨0, "z", 0⟩ ⟨0, "z", 0⟩
    ⟨0, "z", 0⟩ ⟨0, "z", 0⟩).2.1 (by decide)

/-! ## Claims about the process supervisor -/

/-- C2: start is idempotent on a running service — with a recorded
handle whose liveness poll shows it alive, a second start returns
success carrying the recorded pid, the registry is unchanged and the
spawn environment is never consulted (the same equation holds for every
spawn outcome). -/
theorem C2_idempotent_start (procs : ProcMap) (name script : String)
    (env : StartEnv) (p : Proc)
    (hrec : procs name = some p) (halive : p.alive = true) :
    start_process procs name script env =
      .ok ({ ok := true, message := name ++ " already running",
             pid := some p.pid }, procs) := by
  have hrun : is_running procs name = true := by
    unfold is_running
    rw [hrec]
    exact halive
  simp [start_process, hrun, hrec]

/-- Registry with only the emotion service recorded and alive, used to
witness C2. -/
def procsRunning : ProcMap :=
  fun n => if n = "emotion" then some { pid := 123, alive := true } else none

/-- Witness for C2 at a concrete registry: restarting a live service
returns the recorded pid 123 and leaves the registry untouched. -/
theorem C2_witness :
    start_process procsRunning "emotion" "emotion_webcam.py"
        { script_exists := true, spawn := .error "unused" } =
      .ok ({ ok := true, message := "emotion already running",
             pid := some 123 }, procsRunning) :=
  C2_idempotent_start procsRunning "emotion" "emotion_webcam.py"
    { script_exists := true, spawn := .error "unused" }
    { pid := 123, alive := true } rfl rfl

/-- C3: stop is best-effort and always terminal — in the no-handle,
already-exited, graceful-exit and forced-kill cases it reports success
and afterwards no identity is recorded for the service; it reports
failure exactly when a live process is recorded and a termination
primitive raises, and precisely then the registry (the recorded
identity included) is left intact; entries of other services are never
touched. -/
theorem C3_stop_terminal (procs : ProcMap) (name : String) (env : StopEnv) :
    ((stop_process procs name env).1.ok = true →
      (stop_process procs name env).2 name = none) ∧
    ((stop_process procs name env).1.ok = false →
      (stop_process procs name env).2 = procs) ∧
    ((stop_process procs name env).1.ok = false ↔
      ((∃ p, procs name = some p ∧ p.alive = true) ∧
        ∃ m, env = .termRaises m ∨ env = .survivedKillRaises m)) ∧
    (∀ n, n ≠ name → (stop_process procs name env).2 n = procs n) := by
  rcases hp : procs name with - | p
  · have hs : stop_process procs name env =
        ({ ok := true, message := name ++ " not running" }, procs) := by
      simp [stop_process, hp]
    rw [hs]
    refine ⟨fun _ => hp, fun h => by simp at h, ?_, fun n hn => rfl⟩
    constructor
    · intro h
      simp at h
    · rintro ⟨⟨p, hp', -⟩, -⟩
      cases hp'
  · by_cases halive : p.alive = true
    · cases env with
      | termRaises m =>
        have hs : stop_process procs name (.termRaises m) =
            ({ ok := false, message := "Stop failed: " ++ m }, procs) := by
          simp [stop_process, hp, halive]
        rw [hs]
        refine ⟨fun h => by simp at h, fun _ => rfl, ?_, fun n hn => rfl⟩
        exact ⟨fun _ => ⟨⟨p, rfl, halive⟩, m, Or.inl rfl⟩, fun _ => rfl⟩
      | diedInGrace =>
        have hs : stop_process procs name .diedInGrace =
            ({ ok := true, message := "Stopped " ++ name }, setProc procs name none) := by
          simp [stop_process, hp, halive]
        rw [hs]
        refine ⟨fun _ => by simp [setProc], fun h => by simp at h, ?_,
          fun n hn => by simp [setProc, hn]⟩
        constructor
        · intro h
          simp at h
        · rintro ⟨-, m, h | h⟩ <;> cases h
      | survivedKillOk =>
        have hs : stop_process procs name .survivedKillOk =
            ({ ok := true, message := "Stopped " ++ name }, setProc procs name none) := by
          simp [stop_process, hp, halive]
        rw [hs]
        refine ⟨fun _ => by simp [setProc], fun h => by simp at h, ?_,
          fun n hn => by simp [setProc, hn]⟩
        constructor
        · intro h
          simp at h
        · rintro ⟨-, m, h | h⟩ <;> cases h
      | survivedKillRaises m =>
        have hs : stop_process procs name (.survivedKillRaises m) =
            ({ ok := false, message := "Stop failed: " ++ m }, procs) := by
          simp [stop_process, hp, halive]
        rw [hs]
        refine ⟨fun h => by simp at h, fun _ => rfl, ?_, fun n hn => rfl⟩
        exact ⟨fun _ => ⟨⟨p, rfl, halive⟩, m, Or.inr rfl⟩, fun _ => rfl⟩
    · have hdead : p.alive = false := by
        cases h : p.alive
        · rfl
        · exact absurd h halive
      have hs : stop_process procs name env =
          ({ ok := true, message := name ++ " already stopped" },
           setProc procs name none) := by
        simp [stop_process, hp, hdead]
      rw [hs]
      refine ⟨fun _ => by simp [setProc], fun h => by simp at h, ?_,
        fun n hn => by simp [setProc, hn]⟩
      constructor
      · intro h
        simp at h
      · rintro ⟨⟨p', hp', hal'⟩, -⟩
        cases hp'
        exact absurd hal' halive

/-- Registry with only the bot service recorded and alive, used to
witness C3. -/
def procsBotLive : ProcMap :=
  fun n => if n = "bot" then some { pid := 5, alive := true } else none

/-- Witness for C3 at a concrete registry: when the termination
primitive raises, stop reports failure and the registry, the recorded
identity included, is intact. -/
theorem C3_witness :
    (stop_process procsBotLive "bot" (.termRaises "EPERM")).1.ok = false ∧
    (stop_process procsBotLive "bot" (.termRaises "EPERM")).2 = procsBotLive := by
  have h := C3_stop_terminal procsBotLive "bot" (.termRaises "EPERM")
  have hfail : (stop_process procsBotLive "bot" (.termRaises "EPERM")).1.ok = false :=
    h.2.2.1.mpr ⟨⟨{ pid := 5, alive := true }, rfl, rfl⟩, "EPERM", Or.inl rfl⟩
  exact ⟨hfail, h.2.1 hfail⟩

/-- The empty registry, used for the C8 counterexample and witness. -/
def procsEmpty : ProcMap := fun _ => none

/-- Counterexample to C8 as stated: when the script exists but the spawn
primitive itself raises, start_process has no handler — the call
propagates the error instead of returning a structured failure result. -/
theorem C8_counterexample :
    start_process procsEmpty "bot" "main_integrated.py"
        { script_exists := true, spawn := .error "PermissionError" } =
      .error "PermissionError" := rfl

/-- C8 amended: a start whose launch target is missing returns a
structured failure (ok false with the reason) without raising and leaves
the registry unchanged; a spawn-primitive error, however, is not caught
and propagates to the caller (the registry is still unchanged, since the
recording assignment is never reached). -/
theorem C8_amended_start_failure (procs : ProcMap) (name script : String)
    (env : StartEnv) (hnotrun : is_running procs name = false) :
    (env.script_exists = false →
      start_process procs name script env =
        .ok ({ ok := false, message := "Missing file: " ++ script, pid := none },
             procs)) ∧
    (∀ e, env.spawn = .error e → env.script_exists = true →
      start_process procs name script env = .error e) := by
  constructor
  · intro hmiss
    simp [start_process, hnotrun, hmiss]
  · intro e hspawn hexists
    simp [start_process, hnotrun, hexists, hspawn]

/-- Witness for the amended C8 at a concrete registry: a missing script
yields a structured failure with the registry unchanged, and a raising
spawn propagates. -/
theorem C8_witness :
    start_process procsEmpty "bot" "nope.py"
        { script_exists := false, spawn := .ok { pid := 1, alive := true } } =
      .ok ({ ok := false, message := "Missing file: nope.py", pid := none },
           procsEmpty) ∧
    start_process procsEmpty "bot" "main_integrated.py"
        { script_exists := true, spawn := .error "boom" } = .error "boom" :=
  ⟨(C8_amended_start_failure procsEmpty "bot" "nope.py"
      { script_exists := false, spawn := .ok { pid := 1, alive := true } } rfl).1 rfl,
   (C8_amended_start_failure procsEmpty "bot" "main_integrated.py"
      { script_exists := true, spawn := .error "boom" } rfl).2 "boom" rfl rfl⟩

/-- Registry in which the emotion service has a recorded handle whose
process has exited, used for the C9 counterexample and witness. -/
def procsDeadEmotion : ProcMap :=
  fun n => if n = "emotion" then some { pid := 7, alive := false } else none

/-- Counterexample to C9 as stated: with a recorded but exited emotion
process, the status query reports it as not running with no pid — but it
does not clear the stored identity: the registry it leaves behind still
records the dead handle. -/
theorem C9_counterexample :
    (status_payload procsDeadEmotion []).1.emotion_running = false ∧
    (status_payload procsDeadEmotion []).1.emotion_pid = none ∧
    (status_payload procsDeadEmotion []).2 "emotion" =
      some { pid := 7, alive := false } ∧
    (status_payload procsDeadEmotion []).2 "emotion" ≠ none := by
  refine ⟨rfl, rfl, rfl, ?_⟩
  simp [status_payload, procsDeadEmotion]

/-- C9 amended: the status query is a pure read — liveness is re-checked
on every call and a dead or missing process is reported as not running
with no identity, but the registry, the stale identity included, is
returned entirely unchanged; nothing in the supervisor state changes. -/
theorem C9_amended_status_pure (procs : ProcMap) (trace : List (ProbeOutcome × ℚ)) :
    (status_payload procs trace).2 = procs ∧
    (is_running procs "emotion" = false →
      (status_payload procs trace).1.emotion_running = false ∧
      (status_payload procs trace).1.emotion_pid = none) ∧
    (is_running procs "bot" = false →
      (status_payload procs trace).1.bot_running = false ∧
      (status_payload procs trace).1.bot_pid = none) := by
  refine ⟨rfl, ?_, ?_⟩
  · intro h
    simp [status_payload, h]
  · intro h
    simp [status_payload, h]

/-- Witness for the amended C9 at a concrete registry: the dead handle
is reported not running, with the registry returned unchanged. -/
theorem C9_witness :
    (status_payload procsDeadEmotion []).2 = procsDeadEmotion ∧
    (status_payload procsDeadEmotion []).1.emotion_running = false :=
  ⟨(C9_amended_status_pure procsDeadEmotion []).1,
   ((C9_amended_status_pure procsDeadEmotion []).2.1 rfl).1⟩

/-! ## Helper lemmas about the readiness prober -/

/-- A trace containing no 200 status never reports readiness. -/
theorem wait_all_fail :
    ∀ (trace : List (ProbeOutcome × ℚ)) (timeout elapsed : ℚ),
      (∀ od ∈ trace, od.1 ≠ ProbeOutcome.status 200) →
      wait_for_emotion_api timeout elapsed trace = false := by
  intro trace
  induction trace with
  | nil => intro timeout elapsed _; rfl
  | cons od rest ih =>
    intro timeout elapsed h
    obtain ⟨o, d⟩ := od
    by_cases hlt : elapsed < timeout
    · rw [wait_for_emotion_api, if_pos hlt]
      cases o with
      | exn => exact ih timeout (elapsed + d) fun od h' => h od (List.mem_cons_of_mem _ h')
      | status code =>
        have hcode : code ≠ 200 := by
          intro hc
          subst hc
          exact h (ProbeOutcome.status 200, d) (List.mem_cons_self _ _) rfl
        show (if code = 200 then true
          else wait_for_emotion_api timeout (elapsed + d) rest) = false
        rw [if_neg hcode]
        exact ih timeout (elapsed + d) fun od h' => h od (List.mem_cons_of_mem _ h')
    · rw [wait_for_emotion_api, if_neg hlt]

/-- After any run of unsuccessful attempts with nonnegative durations
whose cumulative time still lies inside the timeout, the first 200
status reports readiness. -/
theorem wait_success_after_failures :
    ∀ (pre : List (ProbeOutcome × ℚ)) (timeout elapsed d : ℚ)
      (rest : List (ProbeOutcome × ℚ)),
      (∀ od ∈ pre, od.1 ≠ ProbeOutcome.status 200) →
      (∀ od ∈ pre, 0 ≤ od.2) →
      elapsed + (pre.map Prod.snd).sum < timeout →
      wait_for_emotion_api timeout elapsed
        (pre ++ (ProbeOutcome.status 200, d) :: rest) = true := by
  intro pre
  induction pre with
  | nil =>
    intro timeout elapsed d rest _ _ hlt
    simp only [List.map_nil, List.sum_nil, add_zero] at hlt
    rw [List.nil_append, wait_for_emotion_api, if_pos hlt]
    simp
  | cons od pre' ih =>
    intro timeout elapsed d rest hfail hnn hlt
    obtain ⟨o, d'⟩ := od
    have hd' : (0:ℚ) ≤ d' := hnn (o, d') (List.mem_cons_self _ _)
    have hsum : (0:ℚ) ≤ (pre'.map Prod.snd).sum :=
      List.sum_nonneg fun x hx => by
        obtain ⟨od', hod', rfl⟩ := List.mem_map.mp hx
        exact hnn od' (List.mem_cons_of_mem _ hod')
    rw [List.map_cons, List.sum_cons] at hlt
    have hlt1 : elapsed < timeout := by linarith
    have hlt2 : elapsed + d' + (pre'.map Prod.snd).sum < timeout := by linarith
    have hfail' : ∀ od ∈ pre', od.1 ≠ ProbeOutcome.status 200 :=
      fun od h' => hfail od (List.mem_cons_of_mem _ h')
    have hnn' : ∀ od ∈ pre', (0:ℚ) ≤ od.2 :=
      fun od h' => hnn od (List.mem_cons_of_mem _ h')
    rw [List.cons_append, wait_for_emotion_api, if_pos hlt1]
    cases o with
    | exn => exact ih timeout (elapsed + d') d rest hfail' hnn' hlt2
    | status code =>
      have hcode : code ≠ 200 := by
        intro hc
        subst hc
        exact hfail (ProbeOutcome.status 200, d') (List.mem_cons_self _ _) rfl
      show (if code = 200 then true
        else wait_for_emotion_api timeout (elapsed + d')
          (pre' ++ (ProbeOutcome.status 200, d) :: rest)) = true
      rw [if_neg hcode]
      exact ih timeout (elapsed + d') d rest hfail' hnn' hlt2

/-- C7: the readiness probe always returns a boolean and never raises —
an expired guard returns false; a 200 status inside the timeout returns
true immediately; a raised request and a non-success status are treated
identically (the probe result is the same function of the remaining
trace); a trace with no success yields false; and a success reached
within the timeout after any run of failed attempts yields true. -/
theorem C7_probe_boolean (timeout elapsed d : ℚ) (code : Nat)
    (trace : List (ProbeOutcome × ℚ)) :
    (¬ elapsed < timeout → wait_for_emotion_api timeout elapsed trace = false) ∧
    (elapsed < timeout →
      wait_for_emotion_api timeout elapsed
        ((ProbeOutcome.status 200, d) :: trace) = true) ∧
    (code ≠ 200 →
      wait_for_emotion_api timeout elapsed ((ProbeOutcome.status code, d) :: trace) =
        wait_for_emotion_api timeout elapsed ((ProbeOutcome.exn, d) :: trace)) ∧
    ((∀ od ∈ trace, od.1 ≠ ProbeOutcome.status 200) →
      wait_for_emotion_api timeout elapsed trace = false) ∧
    (∀ pre rest, (∀ od ∈ pre, od.1 ≠ ProbeOutcome.status 200) →
      (∀ od ∈ pre, (0:ℚ) ≤ od.2) →
      elapsed + (pre.map Prod.snd).sum < timeout →
      wait_for_emotion_api timeout elapsed
        (pre ++ (ProbeOutcome.status 200, d) :: rest) = true) := by
  refine ⟨?_, ?_, ?_, ?_, ?_⟩
  · intro hge
    cases trace with
    | nil => rfl
    | cons od rest =>
      obtain ⟨o, d'⟩ := od
      rw [wait_for_emotion_api, if_neg hge]
  · intro hlt
    rw [wait_for_emotion_api, if_pos hlt]
    simp
  · intro hcode
    by_cases hlt : elapsed < timeout
    · rw [wait_for_emotion_api, if_pos hlt, wait_for_emotion_api, if_pos hlt]
      simp [hcode]
    · rw [wait_for_emotion_api, if_neg hlt, wait_for_emotion_api, if_neg hlt]
  · exact wait_all_fail trace timeout elapsed
  · intro pre rest hfail hnn hlt
    exact wait_success_after_failures pre timeout elapsed d rest hfail hnn hlt

/-- Witness for C7 at concrete traces: an expired guard fails, an
immediate success succeeds, a success after two failed attempts
succeeds, and a trace of only failures fails. -/
theorem C7_witness :
    wait_for_emotion_api 8 9 [(ProbeOutcome.status 200, 1)] = false ∧
    wait_for_emotion_api 8 0 [(ProbeOutcome.status 200, 1)] = true ∧
    wait_for_emotion_api 8 0 [(ProbeOutcome.exn, 1), (ProbeOutcome.status 500, 1),
      (ProbeOutcome.status 200, 1)] = true ∧
    wait_for_emotion_api 8 0
      [(ProbeOutcome.exn, 1), (ProbeOutcome.status 500, 1)] = false :=
  ⟨(C7_probe_boolean 8 9 1 0 [(ProbeOutcome.status 200, 1)]).1 (by decide),
   (C7_probe_boolean 8 0 1 0 []).2.1 (by decide),
   (C7_probe_boolean 8 0 1 0 []).2.2.2.2
     [(ProbeOutcome.exn, 1), (ProbeOutcome.status 500, 1)] []
     (by decide) (by decide) (by norm_num),
   (C7_probe_boolean 8 0 1 0
     [(ProbeOutcome.exn, 1), (ProbeOutcome.status 500, 1)]).2.2.2.1 (by decide)⟩

/-! ## Claims about the orchestration routes -/

/-- The possible launch-attempt lists of one start call: empty, or the
single launch of that service. -/
theorem start_events_eq (procs : ProcMap) (name : String) (env : StartEnv) :
    start_events procs name env = [] ∨
      start_events procs name env = [Event.launch name] := by
  unfold start_events
  split_ifs <;> simp

/-- A bot launch never occurs among the launch attempts of the emotion
start call. -/
theorem launch_bot_not_mem_emotion_events (procs : ProcMap) (env : StartEnv) :
    Event.launch "bot" ∉ start_events procs "emotion" env := by
  rcases start_events_eq procs "emotion" env with h | h <;> rw [h] <;> simp

/-- A probe-return event never occurs among launch attempts. -/
theorem probeReturn_not_mem_start_events (procs : ProcMap) (name : String)
    (env : StartEnv) (b : Bool) :
    Event.probeReturn b ∉ start_events procs name env := by
  rcases start_events_eq procs name env with h | h <;> rw [h] <;> simp

/-- C5: orchestration ordering — in every execution of the start route,
a bot launch attempt appears only strictly after the probe returned
true; when the probe reports not-ready the bot is never launched and the
route result carries the fixed failure payload for the bot; and in the
stop route the stop of the bot completes first, its resulting registry
feeding the stop of the emotion producer, with the stop calls in that
order. -/
theorem C5_orchestration_ordering (procs : ProcMap) (envE envB : StartEnv)
    (probeTrace : List (ProbeOutcome × ℚ)) (envB' envE' : StopEnv) :
    (Event.launch "bot" ∈ (start_all procs envE probeTrace envB).2.2 →
      ∃ pre, (start_all procs envE probeTrace envB).2.2 =
          pre ++ [Event.probeReturn true, Event.launch "bot"] ∧
        Event.launch "bot" ∉ pre ∧ Event.probeReturn true ∉ pre) ∧
    (wait_for_emotion_api 30 0 probeTrace = false →
      Event.launch "bot" ∉ (start_all procs envE probeTrace envB).2.2 ∧
      ∀ res, (start_all procs envE probeTrace envB).1 = .ok res →
        res.2.1 = false ∧
        res.2.2 = { ok := false,
                    message := "Emotion API did not come up. Bot not started.",
                    pid := none }) ∧
    (stop_all procs envB' envE').2.2 =
      [Event.stopCall "bot", Event.stopCall "emotion"] ∧
    (stop_all procs envB' envE').1.1 = (stop_process procs "bot" envB').1 ∧
    (stop_all procs envB' envE').1.2 =
      (stop_process (stop_process procs "bot" envB').2 "emotion" envE').1 ∧
    (stop_all procs envB' envE').2.1 =
      (stop_process (stop_process procs "bot" envB').2 "emotion" envE').2 := by
  have hnbE := launch_bot_not_mem_emotion_events procs envE
  have hnpE := probeReturn_not_mem_start_events procs "emotion" envE true
  refine ⟨?_, ?_, rfl, rfl, rfl, rfl⟩
  all_goals
    rcases hE : start_process procs "emotion" "emotion_webcam.py" envE with e | ⟨resE, procs1⟩
  · have hall : (start_all procs envE probeTrace envB).2.2 =
        start_events procs "emotion" envE := by
      simp only [start_all, hE]
    rw [hall]
    intro hmem
    exact absurd hmem hnbE
  · cases hready : wait_for_emotion_api 30 0 probeTrace with
    | false =>
      have hall : (start_all procs envE probeTrace envB).2.2 =
          start_events procs "emotion" envE ++ [Event.probeReturn false] := by
        simp [start_all, hE, hready]
      rw [hall]
      intro hmem
      rcases List.mem_append.mp hmem with h | h
      · exact absurd h hnbE
      · simp at h
    | true =>
      rcases hB : start_process procs1 "bot" "main_integrated.py" envB with
        e2 | ⟨resB, procs2⟩ <;>
      · have hall : (start_all procs envE probeTrace envB).2.2 =
            (start_events procs "emotion" envE ++ [Event.probeReturn true]) ++
              start_events procs1 "bot" envB := by
          simp [start_all, hE, hready, hB]
        rw [hall]
        intro hmem
        rcases start_events_eq procs1 "bot" envB with hsb | hsb
        · rw [hsb, List.append_nil] at hmem
          rcases List.mem_append.mp hmem with h | h
          · exact absurd h hnbE
          · simp at h
        · refine ⟨start_events procs "emotion" envE, ?_, hnbE, hnpE⟩
          rw [hsb, List.append_assoc, List.singleton_append]
  · have hall : start_all procs envE probeTrace envB =
        (.error e, procs, start_events procs "emotion" envE) := by
      simp only [start_all, hE]
    rw [hall]
    intro hfalse
    refine ⟨fun hmem => absurd hmem hnbE, ?_⟩
    intro res h
    cases h
  · cases hready : wait_for_emotion_api 30 0 probeTrace with
    | false =>
      have hall : start_all procs envE probeTrace envB =
          (.ok (resE, false,
            { ok := false,
              message := "Emotion API did not come up. Bot not started.",
              pid := none }), procs1,
           start_events procs "emotion" envE ++ [Event.probeReturn false]) := by
        simp [start_all, hE, hready]
      rw [hall]
      intro hfalse
      constructor
      · intro hmem
        rcases List.mem_append.mp hmem with h | h
        · exact absurd h hnbE
        · simp at h
      · intro res h
        cases h
        exact ⟨rfl, rfl⟩
    | true =>
      intro hfalse
      cases hfalse

/-- Witness for C5 at concrete inputs: with an empty registry, an
existing script and a probe trace that never succeeds, the bot is not
launched and the route reports the fixed failure payload. -/
theorem C5_witness :
    Event.launch "bot" ∉
      (start_all procsEmpty { script_exists := true, spawn := .ok { pid := 11, alive := true } }
        [] { script_exists := true, spawn := .ok { pid := 12, alive := true } }).2.2 ∧
    (stop_all procsEmpty StopEnv.diedInGrace StopEnv.diedInGrace).2.2 =
      [Event.stopCall "bot", Event.stopCall "emotion"] := by
  have h := C5_orchestration_ordering procsEmpty
    { script_exists := true, spawn := .ok { pid := 11, alive := true } }
    { script_exists := true, spawn := .ok { pid := 12, alive := true } }
    [] StopEnv.diedInGrace StopEnv.diedInGrace
  exact ⟨(h.2.1 rfl).1, h.2.2.1⟩

end EmoConnect
